import Mathlib

/-!
Verification of the `spmf` Python wrapper (hodlen/spmf-py).

This file gives a shallow embedding of `src/spmf/__init__.py` — the `Spmf`
class: its constructor, input handling / encoding, subprocess command
construction, and output parsing — and proves or refutes the frozen claims
about that code.

Conventions of the embedding:
* Python `str` is Lean `String`; Python `int` is Lean `Int` (arbitrary
  precision in both).
* Python exceptions are modelled by the `PyError` type and functions that can
  raise return `Except PyError _` (or pair the result with the unchanged
  state, where the claim is about state).
* `int(s)` is modelled by `pyInt?` (strip surrounding whitespace, optional
  sign, non-empty digit run; numeric-literal underscores and non-ASCII digits
  are not modelled since no input here contains them); a `none` result
  corresponds to Python's `ValueError`.
* The regular expression `^(.+)(-2 )?#SUP: (\d+) #SID: (.+)$` used by
  `Spmf.parse_output` is modelled operationally by `reMatchAux`, which mirrors
  the backtracking engine: the greedy `(.+)` group is tried longest-first, and
  at each split point the optional `(-2 )` group is tried before the empty
  alternative.
-/

/-- Value of a decimal digit character (`'0'` ↦ 0 … `'9'` ↦ 9). -/
def digitVal (c : Char) : Nat := c.toNat - 48

/-- Numeric value of a list of decimal digit characters, most significant first. -/
def valDigits (l : List Char) : Nat := l.foldl (fun a c => 10 * a + digitVal c) 0

/-- Parse an optional sign followed by a non-empty run of decimal digits, as
Python's `int()` does after stripping whitespace. Returns `none` where Python
raises `ValueError`. -/
def intOfChars? (l : List Char) : Option Int :=
  match l with
  | '-' :: ds => if ds ≠ [] ∧ ds.all Char.isDigit then some (-(valDigits ds : Int)) else none
  | '+' :: ds => if ds ≠ [] ∧ ds.all Char.isDigit then some ((valDigits ds : Int)) else none
  | ds => if ds ≠ [] ∧ ds.all Char.isDigit then some ((valDigits ds : Int)) else none

/-- Python's `s.strip()`: remove whitespace from both ends. -/
def pyStrip (s : String) : String :=
  String.mk (((s.toList.dropWhile Char.isWhitespace).reverse.dropWhile
    Char.isWhitespace).reverse)

/-- Python's `int(s)` on a string: strip surrounding whitespace, then parse a
signed decimal literal. -/
def pyInt? (s : String) : Option Int := intOfChars? (pyStrip s).toList

/-- Python's `s.split(sep)` for a non-empty separator, on character lists:
split at each leftmost, non-overlapping occurrence of `sep`. The `fuel`
argument (any bound above the input length) only makes the recursion
structural; it never runs out. `cur` holds the current fragment, reversed. -/
def pySplitAux (sep : List Char) : Nat → List Char → List Char → List (List Char)
  | _, cur, [] => [cur.reverse]
  | 0, cur, l => [cur.reverse ++ l]
  | fuel + 1, cur, c :: rest =>
    if sep.isPrefixOf (c :: rest) then
      cur.reverse :: pySplitAux sep fuel [] (rest.drop (sep.length - 1))
    else pySplitAux sep fuel (c :: cur) rest

/-- Python's `s.split(sep)` for a non-empty separator `sep`. -/
def pySplit (s sep : String) : List String :=
  (pySplitAux sep.toList (s.toList.length + 1) [] s.toList).map String.mk

/-- Python exceptions raised by the code under study. -/
inductive PyError where
  /-- `RuntimeError(msg)` -/
  | runtimeError (msg : String)
  /-- `ValueError` from `int()` on an invalid literal; carries the literal. -/
  | valueError (literal : String)
  /-- `TypeError(msg)` -/
  | typeError (msg : String)
  /-- `UnboundLocalError` for the named local variable referenced before assignment. -/
  | unboundLocalError (var : String)
  /-- `FileNotFoundError(msg)` -/
  | fileNotFoundError (msg : String)
deriving Repr, DecidableEq

/-- A decoded output record: one line of SPMF output as stored (as a tuple) in
`Spmf.parsed_output_`. -/
structure Pattern where
  pattern : List Int
  support : Int
  sequence_ids : List Int
deriving Repr, DecidableEq

/-- Python's `f.readlines()` on the whole file content: split at `'\n'`,
keeping the newline at the end of every line but the last; a trailing newline
does not create an extra empty line, and an empty file has no lines. -/
def readlines (content : String) : List String :=
  let parts := pySplit content "\n"
  (parts.dropLast.map (fun s => s ++ "\n")) ++
    (match parts.getLast? with
     | some "" => []
     | some s => [s]
     | none => [])

/-- Model of `os.path.join` for the (POSIX) paths used here. -/
def os_path_join (a b : String) : String :=
  if a = "" then b
  else if a.toList.getLast? = some '/' then a ++ b
  else a ++ "/" ++ b

/-- Model of `os.path.isfile`, over a file system modelled as the list of paths of
existing regular files. -/
def os_path_isfile (fs : List String) (p : String) : Bool := fs.contains p

/-- The tail part of the `parse_output` regex after the greedy first group:
checks that `rest` is `"#SUP: " ++ sup ++ " #SID: " ++ sids` where `sup` is a
non-empty digit run (`\d+`, necessarily maximal since the next literal
character is a space) and `sids` is non-empty (`(.+)$`). Returns the `\d+` and
final `(.+)` captures. -/
def reMatchTail (rest : List Char) : Option (List Char × List Char) :=
  if ("#SUP: ".toList).isPrefixOf rest then
    let r1 := rest.drop 6
    let sup := r1.takeWhile Char.isDigit
    let r2 := r1.dropWhile Char.isDigit
    if sup = [] then none
    else if (" #SID: ".toList).isPrefixOf r2 then
      let sids := r2.drop 7
      if sids = [] then none else some (sup, sids)
    else none
  else none

/-- One split point of `^(.+)(-2 )?#SUP: (\d+) #SID: (.+)$`: group `(.+)` is
`pre` (must be non-empty), the rest of the line is `rest`; the optional group
`(-2 )` is tried before its empty alternative, as the engine does. -/
def reMatchAt (pre rest : List Char) : Option (List Char × List Char × List Char) :=
  if pre = [] then none
  else if ('-' :: '2' :: ' ' :: []).isPrefixOf rest then
    match reMatchTail (rest.drop 3) with
    | some (sup, sids) => some (pre, sup, sids)
    | none => (reMatchTail rest).map (fun r => (pre, r.1, r.2))
  else (reMatchTail rest).map (fun r => (pre, r.1, r.2))

/-- Backtracking search for `^(.+)(-2 )?#SUP: (\d+) #SID: (.+)$`: the greedy
group `(.+)` is extended as far as possible (the recursive call, which moves
one more character into the group, is tried first). Returns the captures
`(.+)`, `\d+`, `(.+)` of a successful match. -/
def reMatchAux : List Char → List Char → Option (List Char × List Char × List Char)
  | _, [] => none
  | pre, c :: rest =>
    match reMatchAux (pre ++ [c]) rest with
    | some r => some r
    | none => reMatchAt pre (c :: rest)

/-- Model of `re.search` on the pattern of `parse_output` — the captured
groups `(pattern-body, support-digits, sequence-ids)` of the match, or `none`. -/
def reSearch (line : String) : Option (String × String × String) :=
  (reMatchAux [] line.toList).map
    (fun r => (String.mk r.1, String.mk r.2.1, String.mk r.2.2))

/-- Map Python's `int()` over a list of string fragments; the first invalid
literal raises `ValueError` (carrying that literal), as in
`list(map(lambda s: int(s), ...))`. -/
def mapPyInt : List String → Except PyError (List Int)
  | [] => .ok []
  | s :: rest =>
    match pyInt? s with
    | none => .error (.valueError s)
    | some i => do
      let is ← mapPyInt rest
      .ok (i :: is)

/-- The fixed message of the `RuntimeError` raised by `Spmf.parse_output` on a
line the regex does not match. -/
def cannotParseMsg : String := "cannot parse SPMF output. check if format is desired."

/-- One iteration of the loop body of `Spmf.parse_output`: strip the line,
match it against `^(.+)(-2 )?#SUP: (\d+) #SID: (.+)$` (no match raises
`RuntimeError`), split the first capture on `' -1 '`, drop empty fragments and
convert the rest with `int()`, convert the `#SUP:` capture with `int()`, and
split the `#SID:` capture on `' '` and convert each fragment with `int()`. -/
def parse_output_line (line0 : String) : Except PyError Pattern := do
  let line := pyStrip line0
  match reSearch line with
  | none => .error (.runtimeError cannotParseMsg)
  | some (body, supStr, sidsStr) =>
    let pat ← mapPyInt ((pySplit body " -1 ").filter (fun s => s.length > 0))
    let sup ←
      match pyInt? supStr with
      | none => .error (.valueError supStr)
      | some v => pure v
    let sids ← mapPyInt (pySplit sidsStr " ")
    .ok ⟨pat, sup, sids⟩

/-- The loop of `Spmf.parse_output` over the lines read from the output file:
one `Pattern` appended per line, aborting at the first line that raises. -/
def parse_output_lines : List String → Except PyError (List Pattern)
  | [] => .ok []
  | l :: ls => do
    let p ← parse_output_line l
    let ps ← parse_output_lines ls
    .ok (p :: ps)

/-- The observable effect of calling `Spmf.parse_output` on `self.parsed_output_`
when the output file holds `content`: on success the member is replaced by the
freshly parsed list; if any line raises, the exception propagates (first
component) and the member keeps its previous value `old`, since the assignment
`self.parsed_output_ = parsed_output` is only executed after the whole loop. -/
def parse_output_run (old : List Pattern) (content : String) :
    Option PyError × List Pattern :=
  match parse_output_lines (readlines content) with
  | .ok ps => (none, ps)
  | .error e => (some e, old)

/-- The normal-mode list encoding inside `Spmf.handle_input`: the accumulation
`seq_spmf += str(item) + ' '` / `+= str(-1) + ' '` / `+= str(-2) + '\n'` over
the nested loops. -/
def encode_normal (input_direct : List (List (List Int))) : String :=
  input_direct.foldl
    (fun acc seq =>
      (seq.foldl
        (fun acc2 item_set =>
          (item_set.foldl (fun acc3 item => acc3 ++ toString item ++ " ") acc2) ++ "-1 ")
        acc) ++ "-2\n")
    ""

/-- Model of `Spmf.write_temp_input_file`: create a unique temporary file, write the
text, rename it to carry the extension, and return the new name. The unique
name chosen by `tempfile` is the parameter `tempName`; the returned pair is
(returned path, list of files written as (path, content)). -/
def write_temp_input_file (tempName : String) (input_text : String)
    (file_ending : String) : String × List (String × String) :=
  (tempName ++ file_ending, [(tempName ++ file_ending, input_text)])

/-- The direct-input argument of the constructor, as used by `handle_input`:
`None` (the default), a string, or a list. The list case is modelled with the
normal-mode element shape (sequences of itemsets of ints); which branch of
`handle_input` runs depends only on `type(input_direct)`, never on the element
shape. -/
inductive InputDirect where
  | pynone
  | pystr (s : String)
  | pylistSeqs (seqs : List (List (List Int)))

/-- Message of the `TypeError` raised when `handle_input` falls through all
input-shape branches. -/
def noCorrectInputMsg : String :=
  "no correct input format found (required: list or str, or input file via input_filename parameter)"

/-- Model of `Spmf.handle_input`: returns the input path the wrapper will use, plus the
list of files written. A non-empty `input_filename` is returned as is; a string
is written verbatim to a temp file whose extension depends on `input_type`
(`file_ending` is referenced unassigned — `UnboundLocalError` — for any other
`input_type`); a list is encoded (normal or text mode); anything else falls
through to `TypeError`. In text mode over a list of sequence collections,
Python raises `TypeError` at the first `seq_str += seq + ". "` (cannot
concatenate a list to `str`) — unless the list is empty, in which case the
loop body never runs and an empty file is written. -/
def handle_input (tempName : String) (input_direct : InputDirect)
    (input_filename : String) (input_type : String) :
    Except PyError (String × List (String × String)) :=
  if input_filename ≠ "" then .ok (input_filename, [])
  else
    match input_direct with
    | .pystr s =>
      if input_type = "normal" then .ok (write_temp_input_file tempName s ".txt")
      else if input_type = "text" then .ok (write_temp_input_file tempName s ".text")
      else .error (.unboundLocalError "file_ending")
    | .pylistSeqs seqs =>
      if input_type = "normal" then
        .ok (write_temp_input_file tempName (encode_normal seqs) ".txt")
      else if input_type = "text" then
        match seqs with
        | [] => .ok (write_temp_input_file tempName "" ".text")
        | _ => .error (.typeError "can only concatenate str (not \"list\") to str")
      else .error (.typeError noCorrectInputMsg)
    | .pynone => .error (.typeError noCorrectInputMsg)

/-- The `Spmf` object: the member variables set by `Spmf.__init__`. -/
structure Spmf where
  executable_dir_ : String
  executable_ : String
  agorithm_name_ : String
  input_ : String
  output_ : String
  arguments_ : List String
  parsed_output_ : List Pattern
  memory_ : Int
deriving Repr, DecidableEq

/-- Message of the `FileNotFoundError` raised when `spmf.jar` is found neither
in `spmf_bin_location_dir` nor next to the module. -/
def jarNotFoundMsg : String :=
  "spmf.jar not found. Please use the spmf_bin_location_dir argument."

/-- Model of `Spmf.__init__`. `fs` is the file system (list of existing file paths),
`moduleDir` is `os.path.dirname(os.path.realpath(__file__))`, and `tempName`
the unique name `tempfile` would choose. Returns the constructed object or the
raised exception, paired with the list of files written (the temp input file,
when one is created): the executable is looked up first in
`spmf_bin_location_dir`, then next to the module, and `FileNotFoundError` is
raised before `handle_input` runs when both lookups fail. -/
def spmf_init (fs : List String) (moduleDir tempName : String)
    (algorithm_name : String) (input_direct : InputDirect) (input_type : String)
    (input_filename : String) (output_filename : String) (arguments : List String)
    (spmf_bin_location_dir : String) (memory : Int) :
    Except PyError Spmf × List (String × String) :=
  let executable := "spmf.jar"
  let exists0 := os_path_isfile fs (os_path_join spmf_bin_location_dir executable)
  let dir1 := if exists0 then spmf_bin_location_dir else moduleDir
  let exists1 := exists0 || os_path_isfile fs (os_path_join moduleDir executable)
  if exists1 = false then (.error (.fileNotFoundError jarNotFoundMsg), [])
  else
    match handle_input tempName input_direct input_filename input_type with
    | .error e => (.error e, [])
    | .ok (inp, writes) =>
      (.ok { executable_dir_ := dir1, executable_ := executable,
             agorithm_name_ := algorithm_name, input_ := inp,
             output_ := output_filename, arguments_ := arguments,
             parsed_output_ := [], memory_ := memory }, writes)

/-- The `subprocess_arguments` list built by `Spmf.run`: `["java"]`, then
`-Xmx<memory>m` when `self.memory_` is truthy (non-zero), then
`["-jar", path, "run", algorithm, input, output]`, then the extra arguments. -/
def run_subprocess_arguments (self : Spmf) : List String :=
  (["java"] ++
      (if self.memory_ ≠ 0 then ["-Xmx" ++ toString self.memory_ ++ "m"] else []) ++
    ["-jar", os_path_join self.executable_dir_ self.executable_, "run",
     self.agorithm_name_, self.input_, self.output_]) ++ self.arguments_

/-- Modelled from the spec (§4.2 / §6 output grammar), for stating
grammar-conformance of output lines: render
`<pattern-body> ["-2 "]? "#SUP: " <support> " #SID: " <sequence_ids>`, where
the pattern body is the itemsets, items space-separated, each itemset followed
by the boundary token `-1 `. -/
def renderGrammarLine (itemsets : List (List Int)) (marker : Bool) (sup : Nat)
    (sids : List Int) : String :=
  String.join (itemsets.map
      (fun is => String.intercalate " " (is.map toString) ++ " -1 ")) ++
    (if marker then "-2 " else "") ++
    "#SUP: " ++ toString sup ++ " #SID: " ++
    String.intercalate " " (sids.map toString)

/-- Split a character list into maximal whitespace-free tokens; `cur` holds
the (reversed) token currently being read. -/
def wsTokensAux : List Char → List Char → List (List Char)
  | cur, [] => if cur = [] then [] else [cur.reverse]
  | cur, c :: cs =>
    if c.isWhitespace then
      if cur = [] then wsTokensAux [] cs else cur.reverse :: wsTokensAux [] cs
    else wsTokensAux (c :: cur) cs

/-- Split a character list into maximal whitespace-free tokens (the manual
whitespace re-tokenization of the round-trip property). -/
def wsTokens (l : List Char) : List (List Char) := wsTokensAux [] l

/-- State of the sentinel regrouping: completed sequences, itemsets of the
current open sequence, items of the current open itemset. -/
abbrev RegroupState := List (List (List Int)) × List (List Int) × List Int

/-- Modelled from the spec (§8 round-trip property): one token of the manual
re-tokenization. `-1` closes the current itemset, `-2` closes the current
sequence (the spec grammar closes every itemset with `-1` before a `-2`, so
the open-itemset accumulator is empty there), and any other token is an item,
read as an integer. -/
def regroupStep (st : RegroupState) (tok : List Char) : RegroupState :=
  let (done, curSeq, curIs) := st
  if tok = '-' :: '1' :: [] then (done, curSeq ++ [curIs], [])
  else if tok = '-' :: '2' :: [] then (done ++ [curSeq], [], [])
  else
    match intOfChars? tok with
    | some i => (done, curSeq, curIs ++ [i])
    | none => st

/-- Modelled from the spec (§8 round-trip property): re-tokenize an encoded
artifact by whitespace and regroup by the `-1`/`-2` sentinels, recovering a
nested sequence collection. -/
def retokenize (s : String) : List (List (List Int)) :=
  ((wsTokens s.toList).foldl regroupStep ([], [], [])).1

/-- The decimal digit characters of `n`, most significant first; this is what
`Nat.toDigitsCore` produces with sufficient fuel. -/
def digitsOf (n : Nat) : List Char :=
  if _h : n < 10 then [Nat.digitChar n]
  else digitsOf (n / 10) ++ [Nat.digitChar (n % 10)]
decreasing_by exact Nat.div_lt_self (by omega) (by omega)

/-- Characters contributed to the encoding by one itemset: each item's decimal
string and a space, then the boundary `-1 `. -/
def itemsetChars (item_set : List Int) : List Char :=
  item_set.flatMap (fun item => (toString item).toList ++ [' ']) ++
    ('-' :: '1' :: ' ' :: [])

/-- Characters contributed to the encoding by one sequence: its itemsets, then
the terminator `-2` and the newline. -/
def seqChars (seq : List (List Int)) : List Char :=
  seq.flatMap itemsetChars ++ ('-' :: '2' :: '\n' :: [])

/-- Characters of the whole normal-mode encoding. -/
def collChars (seqs : List (List (List Int))) : List Char :=
  seqs.flatMap seqChars

/-- Tokens contributed by one itemset: one token per item, then `-1`. -/
def itemsetToks (item_set : List Int) : List (List Char) :=
  item_set.map (fun item => (toString item).toList) ++ [('-' :: '1' :: [])]

/-- Tokens contributed by one sequence: its itemsets' tokens, then `-2`. -/
def seqToks (seq : List (List Int)) : List (List Char) :=
  seq.flatMap itemsetToks ++ [('-' :: '2' :: [])]

/-- Tokens of the whole encoded collection. -/
def collToks (seqs : List (List (List Int))) : List (List Char) :=
  seqs.flatMap seqToks

/-- Whether `needle` occurs as a contiguous run inside `hay` (used to state whether an
error message names the offending line). -/
def containsSub : List Char → List Char → Bool
  | [], needle => needle.isEmpty
  | c :: rest, needle => needle.isPrefixOf (c :: rest) || containsSub rest needle

/-!
Helper lemmas: decimal rendering of integers round-trips through `intOfChars?`
-/

theorem digitChar_isDigit {k : Nat} (h : k < 10) : (Nat.digitChar k).isDigit = true := by
  interval_cases k <;> decide

theorem digitVal_digitChar {k : Nat} (h : k < 10) : digitVal (Nat.digitChar k) = k := by
  interval_cases k <;> decide

theorem digitsOf_ne_nil (n : Nat) : digitsOf n ≠ [] := by
  unfold digitsOf
  split <;> simp

theorem digitsOf_all_digits (n : Nat) : ∀ c ∈ digitsOf n, c.isDigit = true := by
  induction n using Nat.strong_induction_on with
  | _ n ih =>
    unfold digitsOf
    split
    next h =>
      intro c hc
      rw [List.mem_singleton] at hc
      exact hc ▸ digitChar_isDigit h
    next h =>
      intro c hc
      rcases List.mem_append.mp hc with h1 | h1
      · exact ih (n / 10) (Nat.div_lt_self (by omega) (by omega)) c h1
      · rw [List.mem_singleton] at h1
        exact h1 ▸ digitChar_isDigit (Nat.mod_lt _ (by omega))

theorem valDigits_append (l : List Char) (c : Char) :
    valDigits (l ++ [c]) = 10 * valDigits l + digitVal c := by
  simp [valDigits, List.foldl_append]

theorem valDigits_digitsOf (n : Nat) : valDigits (digitsOf n) = n := by
  induction n using Nat.strong_induction_on with
  | _ n ih =>
    unfold digitsOf
    split
    next h =>
      show valDigits ([] ++ [Nat.digitChar n]) = n
      rw [valDigits_append, digitVal_digitChar h]
      simp [valDigits]
    next h =>
      rw [valDigits_append, ih (n / 10) (Nat.div_lt_self (by omega) (by omega)),
        digitVal_digitChar (Nat.mod_lt _ (by omega))]
      omega

theorem toDigitsCore_eq_digitsOf :
    ∀ (fuel n : Nat) (ds : List Char), n < fuel →
      Nat.toDigitsCore 10 fuel n ds = digitsOf n ++ ds := by
  intro fuel
  induction fuel with
  | zero => intro n ds h; omega
  | succ f ih =>
    intro n ds h
    simp only [Nat.toDigitsCore]
    by_cases h10 : n / 10 = 0
    · rw [if_pos h10]
      have hn : n < 10 := by omega
      unfold digitsOf
      rw [dif_pos hn, Nat.mod_eq_of_lt hn]
      rfl
    · rw [if_neg h10]
      rw [ih (n / 10) _ (by omega)]
      have hn : ¬ n < 10 := by omega
      conv_rhs => rw [digitsOf]
      rw [dif_neg hn]
      simp

theorem natRepr_toList (n : Nat) : (Nat.repr n).toList = digitsOf n := by
  show (List.asString (Nat.toDigitsCore 10 (n + 1) n [])).toList = digitsOf n
  rw [toDigitsCore_eq_digitsOf (n + 1) n [] (Nat.lt_succ_self n)]
  simp [List.asString, String.toList]

theorem intOfChars?_of_digits {l : List Char} (h1 : l ≠ [])
    (h2 : ∀ c ∈ l, c.isDigit = true) :
    intOfChars? l = some ((valDigits l : Nat) : Int) := by
  unfold intOfChars?
  split
  next ds =>
    exact absurd (h2 '-' (List.mem_cons_self _ _)) (by decide)
  next ds =>
    exact absurd (h2 '+' (List.mem_cons_self _ _)) (by decide)
  next h3 h4 =>
    rw [if_pos ⟨h1, by rw [List.all_eq_true]; intro c hc; exact h2 c hc⟩]

theorem toString_ofNat_toList (n : Nat) : (toString (Int.ofNat n)).toList = digitsOf n :=
  natRepr_toList n

theorem toString_negSucc_toList (n : Nat) :
    (toString (Int.negSucc n)).toList = '-' :: digitsOf (n + 1) := by
  show (("-" ++ Nat.repr (n + 1)) : String).toList = '-' :: digitsOf (n + 1)
  show (("-" ++ Nat.repr (n + 1)) : String).data = '-' :: digitsOf (n + 1)
  rw [String.data_append]
  rw [show (Nat.repr (n + 1)).data = digitsOf (n + 1) from natRepr_toList (n + 1)]
  rfl

theorem intOfChars?_toString (i : Int) : intOfChars? (toString i).toList = some i := by
  cases i with
  | ofNat n =>
    rw [toString_ofNat_toList,
      intOfChars?_of_digits (digitsOf_ne_nil n) (digitsOf_all_digits n),
      valDigits_digitsOf]
    rfl
  | negSucc n =>
    rw [toString_negSucc_toList]
    show (if digitsOf (n + 1) ≠ [] ∧ (digitsOf (n + 1)).all Char.isDigit then
        some (-(valDigits (digitsOf (n + 1)) : Int)) else none) = some (Int.negSucc n)
    rw [if_pos ⟨digitsOf_ne_nil (n + 1), by
      rw [List.all_eq_true]; intro c hc; exact digitsOf_all_digits (n + 1) c hc⟩]
    rw [valDigits_digitsOf]
    rw [Int.negSucc_eq]
    simp

theorem isDigit_not_isWhitespace {c : Char} (h : c.isDigit = true) :
    c.isWhitespace = false := by
  cases hw : c.isWhitespace with
  | false => rfl
  | true =>
    exfalso
    simp only [Char.isWhitespace, Bool.or_eq_true, decide_eq_true_eq] at hw
    rcases hw with ((rfl | rfl) | rfl) | rfl <;> exact absurd h (by decide)

theorem toString_int_no_ws (i : Int) :
    ∀ c ∈ (toString i).toList, c.isWhitespace = false := by
  cases i with
  | ofNat n =>
    rw [toString_ofNat_toList]
    intro c hc
    exact isDigit_not_isWhitespace (digitsOf_all_digits n c hc)
  | negSucc n =>
    rw [toString_negSucc_toList]
    intro c hc
    rcases List.mem_cons.mp hc with rfl | hc
    · decide
    · exact isDigit_not_isWhitespace (digitsOf_all_digits (n + 1) c hc)

theorem toString_int_toList_ne_nil (i : Int) : (toString i).toList ≠ [] := by
  cases i with
  | ofNat n => rw [toString_ofNat_toList]; exact digitsOf_ne_nil n
  | negSucc n => rw [toString_negSucc_toList]; simp

theorem toString_int_ne_sentinel1 {i : Int} (h : i ≠ -1) :
    (toString i).toList ≠ '-' :: '1' :: [] := by
  intro he
  apply h
  have h1 := intOfChars?_toString i
  rw [he] at h1
  have h2 : intOfChars? ('-' :: '1' :: []) = some (-1) := by decide
  rw [h2] at h1
  exact (Option.some.injEq _ _ ▸ h1).symm

theorem toString_int_ne_sentinel2 {i : Int} (h : i ≠ -2) :
    (toString i).toList ≠ '-' :: '2' :: [] := by
  intro he
  apply h
  have h1 := intOfChars?_toString i
  rw [he] at h1
  have h2 : intOfChars? ('-' :: '2' :: []) = some (-2) := by decide
  rw [h2] at h1
  exact (Option.some.injEq _ _ ▸ h1).symm

/-!
Helper lemmas: whitespace tokenization of the encoded artifact
-/

theorem wsTokensAux_token {t : List Char} (ht : ∀ c ∈ t, c.isWhitespace = false)
    {w : Char} (hw : w.isWhitespace = true) :
    ∀ (cur rest : List Char),
      wsTokensAux cur (t ++ w :: rest) =
        if cur.reverse ++ t = [] then wsTokensAux [] rest
        else (cur.reverse ++ t) :: wsTokensAux [] rest := by
  induction t with
  | nil =>
    intro cur rest
    simp only [List.nil_append, List.append_nil]
    simp only [wsTokensAux, hw, if_true]
    by_cases hc : cur = []
    · subst hc; simp
    · rw [if_neg hc, if_neg (by simpa using hc)]
  | cons c t' ih =>
    intro cur rest
    have hcw : c.isWhitespace = false := ht c (List.mem_cons_self _ _)
    simp only [List.cons_append, wsTokensAux, hcw, Bool.false_eq_true, if_false,
      List.append_eq]
    rw [ih (fun d hd => ht d (List.mem_cons_of_mem _ hd)) (c :: cur) rest]
    have hne : cur.reverse ++ (c :: t') ≠ [] := by simp
    have hne' : (c :: cur).reverse ++ t' ≠ [] := by simp
    rw [if_neg hne', if_neg hne]
    have : (c :: cur).reverse ++ t' = cur.reverse ++ (c :: t') := by simp
    rw [this]

theorem wsTokens_token_cons {t : List Char} (htne : t ≠ [])
    (ht : ∀ c ∈ t, c.isWhitespace = false) {w : Char} (hw : w.isWhitespace = true)
    (rest : List Char) :
    wsTokens (t ++ w :: rest) = t :: wsTokens rest := by
  unfold wsTokens
  rw [wsTokensAux_token ht hw [] rest]
  simp [htne]

/-!
Helper lemmas: character-level shape of the normal-mode encoding
-/

theorem encode_items_data (item_set : List Int) :
    ∀ acc : String,
      (item_set.foldl (fun acc3 item => acc3 ++ toString item ++ " ") acc).data =
        acc.data ++ item_set.flatMap (fun item => (toString item).toList ++ [' ']) := by
  induction item_set with
  | nil => intro acc; simp
  | cons i is ih =>
    intro acc
    simp only [List.foldl_cons, List.flatMap_cons]
    rw [ih]
    simp [String.data_append]

theorem encode_seq_data (seq : List (List Int)) :
    ∀ acc : String,
      (seq.foldl
          (fun acc2 item_set =>
            (item_set.foldl (fun acc3 item => acc3 ++ toString item ++ " ") acc2) ++ "-1 ")
          acc).data =
        acc.data ++ seq.flatMap itemsetChars := by
  induction seq with
  | nil => intro acc; simp
  | cons is seq' ih =>
    intro acc
    simp only [List.foldl_cons, List.flatMap_cons]
    rw [ih, String.data_append, encode_items_data]
    simp [itemsetChars]

theorem encode_normal_data (seqs : List (List (List Int))) :
    (encode_normal seqs).data = collChars seqs := by
  unfold encode_normal
  suffices h : ∀ acc : String,
      (seqs.foldl
          (fun acc seq =>
            (seq.foldl
              (fun acc2 item_set =>
                (item_set.foldl (fun acc3 item => acc3 ++ toString item ++ " ") acc2) ++ "-1 ")
              acc) ++ "-2\n")
          acc).data = acc.data ++ collChars seqs by
    rw [h ""]; rfl
  induction seqs with
  | nil => intro acc; simp [collChars]
  | cons seq seqs' ih =>
    intro acc
    simp only [List.foldl_cons]
    rw [ih]
    simp only [collChars, List.flatMap_cons, String.data_append, encode_seq_data]
    simp [seqChars]

/-!
Helper lemmas: token stream of the encoding and sentinel regrouping
-/

theorem wsTokens_itemsetChars (item_set : List Int) (tail : List Char) :
    wsTokens (itemsetChars item_set ++ tail) = itemsetToks item_set ++ wsTokens tail := by
  induction item_set with
  | nil =>
    exact wsTokens_token_cons (t := '-' :: '1' :: []) (by simp) (by decide) (by decide) tail
  | cons i is ih =>
    have h1 : itemsetChars (i :: is) ++ tail
        = (toString i).toList ++ ' ' :: (itemsetChars is ++ tail) := by
      simp [itemsetChars]
    rw [h1,
      wsTokens_token_cons (toString_int_toList_ne_nil i) (toString_int_no_ws i)
        (by decide), ih]
    simp [itemsetToks]

theorem wsTokens_seqChars (seq : List (List Int)) (tail : List Char) :
    wsTokens (seqChars seq ++ tail) = seqToks seq ++ wsTokens tail := by
  induction seq with
  | nil =>
    exact wsTokens_token_cons (t := '-' :: '2' :: []) (by simp) (by decide) (by decide) tail
  | cons is seq' ih =>
    have h1 : seqChars (is :: seq') ++ tail
        = itemsetChars is ++ (seqChars seq' ++ tail) := by
      simp [seqChars]
    rw [h1, wsTokens_itemsetChars, ih]
    simp [seqToks]

theorem wsTokens_collChars (seqs : List (List (List Int))) :
    wsTokens (collChars seqs) = collToks seqs := by
  have main : ∀ seqs' tail, wsTokens (collChars seqs' ++ tail) =
      collToks seqs' ++ wsTokens tail := by
    intro seqs'
    induction seqs' with
    | nil => intro tail; simp [collChars, collToks]
    | cons seq rest ih =>
      intro tail
      have h1 : collChars (seq :: rest) ++ tail
          = seqChars seq ++ (collChars rest ++ tail) := by
        simp [collChars]
      rw [h1, wsTokens_seqChars, ih]
      simp [collToks]
  have := main seqs []
  simpa [wsTokens, wsTokensAux] using this

theorem regroupStep_item {i : Int} (h1 : i ≠ -1) (h2 : i ≠ -2)
    (done : List (List (List Int))) (curSeq : List (List Int)) (curIs : List Int) :
    regroupStep (done, curSeq, curIs) ((toString i).toList) =
      (done, curSeq, curIs ++ [i]) := by
  simp only [regroupStep]
  rw [if_neg (toString_int_ne_sentinel1 h1), if_neg (toString_int_ne_sentinel2 h2),
    intOfChars?_toString]

theorem foldl_regroupStep_items (item_set : List Int)
    (h : ∀ i ∈ item_set, i ≠ -1 ∧ i ≠ -2) :
    ∀ (done : List (List (List Int))) (curSeq : List (List Int)) (curIs : List Int),
      (item_set.map (fun item => (toString item).toList)).foldl regroupStep
        (done, curSeq, curIs) = (done, curSeq, curIs ++ item_set) := by
  induction item_set with
  | nil => intro done curSeq curIs; simp
  | cons i is ih =>
    intro done curSeq curIs
    have hi := h i (List.mem_cons_self _ _)
    simp only [List.map_cons, List.foldl_cons]
    rw [regroupStep_item hi.1 hi.2,
      ih (fun j hj => h j (List.mem_cons_of_mem _ hj))]
    simp

theorem foldl_regroupStep_itemset (item_set : List Int)
    (h : ∀ i ∈ item_set, i ≠ -1 ∧ i ≠ -2)
    (done : List (List (List Int))) (curSeq : List (List Int)) :
    (itemsetToks item_set).foldl regroupStep (done, curSeq, []) =
      (done, curSeq ++ [item_set], []) := by
  unfold itemsetToks
  rw [List.foldl_append, foldl_regroupStep_items item_set h]
  simp [regroupStep]

theorem foldl_regroupStep_seq (seq : List (List Int))
    (h : ∀ item_set ∈ seq, ∀ i ∈ item_set, i ≠ -1 ∧ i ≠ -2) :
    ∀ (done : List (List (List Int))) (curSeq : List (List Int)),
      (seq.flatMap itemsetToks).foldl regroupStep (done, curSeq, []) =
        (done, curSeq ++ seq, []) := by
  induction seq with
  | nil => intro done curSeq; simp
  | cons item_set seq' ih =>
    intro done curSeq
    simp only [List.flatMap_cons]
    rw [List.foldl_append,
      foldl_regroupStep_itemset item_set (h item_set (List.mem_cons_self _ _)),
      ih (fun s hs => h s (List.mem_cons_of_mem _ hs))]
    simp

theorem foldl_regroupStep_coll (seqs : List (List (List Int)))
    (h : ∀ seq ∈ seqs, ∀ item_set ∈ seq, ∀ i ∈ item_set, i ≠ -1 ∧ i ≠ -2) :
    ∀ done : List (List (List Int)),
      (collToks seqs).foldl regroupStep (done, [], []) = (done ++ seqs, [], []) := by
  induction seqs with
  | nil => intro done; simp [collToks]
  | cons seq seqs' ih =>
    intro done
    simp only [collToks, List.flatMap_cons]
    rw [List.foldl_append]
    have h2 : (seqToks seq).foldl regroupStep (done, [], []) = (done ++ [seq], [], []) := by
      unfold seqToks
      rw [List.foldl_append,
        foldl_regroupStep_seq seq (h seq (List.mem_cons_self _ _))]
      simp [regroupStep]
    rw [h2]
    have := ih (fun s hs => h s (List.mem_cons_of_mem _ hs)) (done ++ [seq])
    simp only [collToks] at this
    rw [this]
    simp

/-!
Helper lemmas: abort behavior of `parse_output`
-/

theorem parse_output_lines_append_error {pre : List String}
    (hpre : ∀ l ∈ pre, (parse_output_line l).isOk = true)
    {bad : String} (hbad : reSearch (pyStrip bad) = none) (post : List String) :
    parse_output_lines (pre ++ bad :: post) = .error (.runtimeError cannotParseMsg) := by
  induction pre with
  | nil =>
    have hb : parse_output_line bad = .error (.runtimeError cannotParseMsg) := by
      unfold parse_output_line
      simp only [hbad]
    simp only [List.nil_append, parse_output_lines, hb]
    rfl
  | cons l pre' ih =>
    have hok := hpre l (List.mem_cons_self _ _)
    cases hl : parse_output_line l with
    | error e => rw [hl] at hok; exact absurd hok (by simp [Except.isOk, Except.toBool])
    | ok p =>
      simp only [List.cons_append, List.append_eq, parse_output_lines, hl,
        ih (fun x hx => hpre x (List.mem_cons_of_mem _ hx))]
      rfl

theorem handle_input_ne_fileNotFound (tempName : String) (input_direct : InputDirect)
    (input_filename input_type : String) (m : String) :
    handle_input tempName input_direct input_filename input_type ≠
      .error (.fileNotFoundError m) := by
  cases input_direct with
  | pynone =>
    unfold handle_input
    split_ifs <;> simp
  | pystr s =>
    unfold handle_input
    split_ifs <;> simp
  | pylistSeqs seqs =>
    unfold handle_input
    split_ifs <;> try simp
    cases seqs <;> simp

/-!
Claims
-/

/-- Claim C1: the spec says decoding the single output line
`"1 2 -1 3 -1 #SUP: 2 #SID: 0 1"` succeeds with elements `[1,2,3]`, support
`2`, sequence ids `[0,1]`. The code instead aborts: splitting the matched
pattern body `"1 2 -1 3 -1 "` on `' -1 '` leaves the two-item fragment
`"1 2"`, on which `int()` raises `ValueError`, so no `Pattern` is produced and
`parsed_output_` keeps its previous value. -/
theorem claim_C1_valueError_on_two_item_itemset :
    parse_output_run [] "1 2 -1 3 -1 #SUP: 2 #SID: 0 1\n" =
      (some (.valueError "1 2"), []) ∧
    parse_output_line "1 2 -1 3 -1 #SUP: 2 #SID: 0 1" ≠
      .ok ⟨[1, 2, 3], 2, [0, 1]⟩ := by
  refine ⟨by decide, fun h => ?_⟩
  rw [show parse_output_line "1 2 -1 3 -1 #SUP: 2 #SID: 0 1" =
    .error (.valueError "1 2") from rfl] at h
  exact Except.noConfusion h

/-- Claim C2: the spec says a `-2 ` marker before `#SUP:` is skipped, so that
`"1 2 -1 3 -1 -2 #SUP: 1 #SID: 0"` decodes like the same line without `-2`.
In the code the greedy first regex group always swallows the optional
`(-2 )?` group, so the marker leaks into the pattern body: on single-item
bodies the extra element `-2` appears (`[1,3,-2]` vs `[1,3]`), and the claim's
own two-item example does not decode at all (`ValueError` on `"1 2"`). -/
theorem claim_C2_marker_leaks_into_elements :
    parse_output_line "1 -1 3 -1 -2 #SUP: 1 #SID: 0" = .ok ⟨[1, 3, -2], 1, [0]⟩ ∧
    parse_output_line "1 -1 3 -1 #SUP: 1 #SID: 0" = .ok ⟨[1, 3], 1, [0]⟩ ∧
    parse_output_line "1 2 -1 3 -1 -2 #SUP: 1 #SID: 0" = .error (.valueError "1 2") :=
  ⟨rfl, rfl, rfl⟩

/-- Claim C3, counterexample to the claim as stated: decoding an artifact whose
second line is `"garbage line without sentinel"` aborts with a `RuntimeError`
and discards the pattern decoded from the first line (`parsed_output_` keeps
its old value), but the error's message is the fixed string `cannotParseMsg`,
which does not name (contain) the offending line. -/
theorem claim_C3_counterexample :
    parse_output_run [⟨[9], 1, [0]⟩]
        "1 -1 #SUP: 1 #SID: 0\ngarbage line without sentinel\n" =
      (some (.runtimeError cannotParseMsg), [⟨[9], 1, [0]⟩]) ∧
    containsSub cannotParseMsg.toList "garbage line without sentinel".toList = false := by
  decide

/-- Claim C3 (amended): if any line of the output artifact fails to match the
parsing regular expression (and the lines before it parse), decode aborts with
the parse error `RuntimeError('cannot parse SPMF output. check if format is
desired.')` — a fixed message that does not name the offending line — and no
partial result is produced: `parsed_output_` is left unchanged. -/
theorem claim_C3_abort_discards_and_preserves_state (old : List Pattern)
    (content : String) (pre : List String) (bad : String) (post : List String)
    (hsplit : readlines content = pre ++ bad :: post)
    (hpre : ∀ l ∈ pre, (parse_output_line l).isOk = true)
    (hbad : reSearch (pyStrip bad) = none) :
    parse_output_run old content = (some (.runtimeError cannotParseMsg), old) := by
  unfold parse_output_run
  rw [hsplit, parse_output_lines_append_error hpre hbad]

/-- Witness for C3 (amended) at a concrete artifact: a valid first line, then
a malformed one; the stored state `[⟨[5],1,[2]⟩]` is preserved. -/
theorem claim_C3_abort_witness :
    parse_output_run [⟨[5], 1, [2]⟩] "1 -1 #SUP: 1 #SID: 0\ngarbage\n" =
      (some (.runtimeError cannotParseMsg), [⟨[5], 1, [2]⟩]) :=
  claim_C3_abort_discards_and_preserves_state [⟨[5], 1, [2]⟩]
    "1 -1 #SUP: 1 #SID: 0\ngarbage\n" ["1 -1 #SUP: 1 #SID: 0\n"] "garbage\n" []
    (by decide) (by decide) (by decide)

/-- Claim C4, counterexample to the claim as stated (over all integer items):
the sequence collection `[[[-1]]]` encodes to `"-1 -1 -2\n"`, and
re-tokenizing that by whitespace and the `-1`/`-2` sentinels yields
`[[[], []]]` — two empty itemsets — not the original `[[[-1]]]`: an item equal
to a sentinel value cannot be distinguished from a boundary token. -/
theorem claim_C4_counterexample :
    retokenize (encode_normal [[[-1]]]) = [[[], []]] ∧
    ([[[-1]]] : List (List (List Int))) ≠ [[[], []]] := by
  decide

/-- Claim C4 (amended): for every list of sequences of itemsets of integers
none of which is a sentinel value (`-1` or `-2`), normal-mode encoding followed
by re-tokenizing on whitespace and the `-1`/`-2` sentinel tokens reproduces
the original nested structure exactly. -/
theorem claim_C4_roundtrip (seqs : List (List (List Int)))
    (h : ∀ seq ∈ seqs, ∀ item_set ∈ seq, ∀ i ∈ item_set, i ≠ -1 ∧ i ≠ -2) :
    retokenize (encode_normal seqs) = seqs := by
  unfold retokenize
  rw [show (encode_normal seqs).toList = collChars seqs from encode_normal_data seqs,
    wsTokens_collChars, foldl_regroupStep_coll seqs h []]
  rfl

/-- Witness for C4 (amended) at the spec's concrete collection. -/
theorem claim_C4_roundtrip_witness :
    retokenize (encode_normal [[[1, 2], [3]], [[1], [3]]]) =
      [[[1, 2], [3]], [[1], [3]]] :=
  claim_C4_roundtrip [[[1, 2], [3]], [[1], [3]]] (by decide)

/-- Claim C5: normal-mode encoding of `[[[1,2],[3]], [[1],[3]]]` produces
exactly the two lines `"1 2 -1 3 -1 -2\n"` and `"1 -1 3 -1 -2\n"`, in that
order. -/
theorem claim_C5_concrete_encoding :
    encode_normal [[[1, 2], [3]], [[1], [3]]] =
      "1 2 -1 3 -1 -2\n" ++ "1 -1 3 -1 -2\n" ∧
    readlines (encode_normal [[[1, 2], [3]], [[1], [3]]]) =
      ["1 2 -1 3 -1 -2\n", "1 -1 3 -1 -2\n"] := by
  decide

/-- Claim C6: the spec says that when every line of the artifact matches the
grammar, decode produces one `Pattern` per line. The single-line artifact
`"1 2 -1 #SUP: 1 #SID: 0"` is in the spec's line grammar (pattern body = the
one itemset `{1,2}`, no marker, support 1, sequence ids `0`), yet the code
produces no `Pattern` at all: `int()` raises `ValueError` on the un-split
itemset fragment `"1 2"`. -/
theorem claim_C6_grammar_line_crashes :
    renderGrammarLine [[1, 2]] false 1 [0] = "1 2 -1 #SUP: 1 #SID: 0" ∧
    parse_output_run [] ("1 2 -1 #SUP: 1 #SID: 0" ++ "\n") =
      (some (.valueError "1 2"), []) := by
  decide

/-- Claim C7: decoding an empty output artifact (zero bytes, hence zero lines)
succeeds with an empty pattern list and raises nothing, for any previously
stored state. -/
theorem claim_C7_empty_artifact (old : List Pattern) :
    parse_output_run old "" = (none, []) := rfl

theorem spmf_init_of_found {fs : List String} {moduleDir spmf_bin_location_dir : String}
    (tempName algorithm_name : String) (input_direct : InputDirect)
    (input_type input_filename output_filename : String) (arguments : List String)
    (memory : Int) (m : String)
    (h : (os_path_isfile fs (os_path_join spmf_bin_location_dir "spmf.jar") ||
        os_path_isfile fs (os_path_join moduleDir "spmf.jar")) = true) :
    (spmf_init fs moduleDir tempName algorithm_name input_direct input_type
        input_filename output_filename arguments spmf_bin_location_dir memory).1 ≠
      .error (.fileNotFoundError m) := by
  simp only [spmf_init]
  rw [h]
  simp only [if_neg (by decide : ¬ (true = false))]
  cases hh : handle_input tempName input_direct input_filename input_type with
  | error e =>
    simp only
    intro hcontra
    apply handle_input_ne_fileNotFound tempName input_direct input_filename input_type m
    rw [hh]
    exact congrArg Except.error (Except.error.inj hcontra)
  | ok v => simp

theorem spmf_init_of_missing {fs : List String} {moduleDir spmf_bin_location_dir : String}
    (tempName algorithm_name : String) (input_direct : InputDirect)
    (input_type input_filename output_filename : String) (arguments : List String)
    (memory : Int)
    (h0 : os_path_isfile fs (os_path_join spmf_bin_location_dir "spmf.jar") = false)
    (h1 : os_path_isfile fs (os_path_join moduleDir "spmf.jar") = false) :
    spmf_init fs moduleDir tempName algorithm_name input_direct input_type
        input_filename output_filename arguments spmf_bin_location_dir memory =
      (.error (.fileNotFoundError jarNotFoundMsg), []) := by
  simp only [spmf_init]
  rw [h0, h1]
  simp

/-- Claim C8: construction raises `FileNotFoundError` if and only if
`spmf.jar` is present neither in the caller-supplied directory nor in the
directory bundled alongside the module; and in that case the failure happens
before any other work — `handle_input` is not run and no temp file is written
(the write log is empty). -/
theorem claim_C8_jar_lookup (fs : List String) (moduleDir tempName : String)
    (algorithm_name : String) (input_direct : InputDirect)
    (input_type input_filename output_filename : String) (arguments : List String)
    (spmf_bin_location_dir : String) (memory : Int) :
    ((spmf_init fs moduleDir tempName algorithm_name input_direct input_type
        input_filename output_filename arguments spmf_bin_location_dir memory).1 =
      .error (.fileNotFoundError jarNotFoundMsg) ↔
      (os_path_isfile fs (os_path_join spmf_bin_location_dir "spmf.jar") = false ∧
        os_path_isfile fs (os_path_join moduleDir "spmf.jar") = false)) ∧
    ((os_path_isfile fs (os_path_join spmf_bin_location_dir "spmf.jar") = false ∧
        os_path_isfile fs (os_path_join moduleDir "spmf.jar") = false) →
      spmf_init fs moduleDir tempName algorithm_name input_direct input_type
        input_filename output_filename arguments spmf_bin_location_dir memory =
        (.error (.fileNotFoundError jarNotFoundMsg), [])) := by
  refine ⟨⟨?_, ?_⟩, ?_⟩
  · intro h
    cases h0 : os_path_isfile fs (os_path_join spmf_bin_location_dir "spmf.jar") with
    | true =>
      exact absurd h (spmf_init_of_found tempName algorithm_name input_direct
        input_type input_filename output_filename arguments memory _
        (by rw [h0]; simp))
    | false =>
      cases h1 : os_path_isfile fs (os_path_join moduleDir "spmf.jar") with
      | true =>
        exact absurd h (spmf_init_of_found tempName algorithm_name input_direct
          input_type input_filename output_filename arguments memory _
          (by rw [h0, h1]; simp))
      | false => exact ⟨rfl, rfl⟩
  · intro h
    rw [spmf_init_of_missing tempName algorithm_name input_direct input_type
      input_filename output_filename arguments memory h.1 h.2]
  · intro h
    exact spmf_init_of_missing tempName algorithm_name input_direct input_type
      input_filename output_filename arguments memory h.1 h.2

/-- Witness for C8 at a concrete empty file system: the jar is nowhere, so
construction fails with `FileNotFoundError` and writes nothing. -/
theorem claim_C8_jar_lookup_witness :
    spmf_init [] "/mod" "/tmp/t0" "Algo" .pynone "normal" "" "spmf-output.txt"
        [] "." 0 =
      (.error (.fileNotFoundError jarNotFoundMsg), []) :=
  (claim_C8_jar_lookup [] "/mod" "/tmp/t0" "Algo" .pynone "normal" ""
    "spmf-output.txt" [] "." 0).2 (by decide)

/-- Claim C9, counterexample to the claim as stated: the claim says the
`-Xmx<N>m` flag is present if and only if the configured memory budget is
positive; but for the (non-positive) budget `-1` the code's truthiness test
`if self.memory_:` still fires and the flag `-Xmx-1m` appears in the command. -/
theorem claim_C9_counterexample :
    "-Xmx-1m" ∈ run_subprocess_arguments
      ⟨".", "spmf.jar", "Algo", "in.txt", "spmf-output.txt", [], [], -1⟩ ∧
    ¬ (0 < (-1 : Int)) := by
  decide

/-- Claim C9 (amended): the invocation command line is exactly
`[java, optional memory flag, -jar, engine path, run, algorithm, input,
output, extra arguments in caller order]`, where the `-Xmx<N>m` flag is
present if and only if the configured memory budget `N` is non-zero (also for
negative `N`), and omitted when it is zero. -/
theorem claim_C9_command_shape (self : Spmf) :
    (self.memory_ ≠ 0 →
      run_subprocess_arguments self =
        ["java", "-Xmx" ++ toString self.memory_ ++ "m", "-jar",
          os_path_join self.executable_dir_ self.executable_, "run",
          self.agorithm_name_, self.input_, self.output_] ++ self.arguments_) ∧
    (self.memory_ = 0 →
      run_subprocess_arguments self =
        ["java", "-jar", os_path_join self.executable_dir_ self.executable_, "run",
          self.agorithm_name_, self.input_, self.output_] ++ self.arguments_) := by
  constructor <;> intro h <;> simp [run_subprocess_arguments, h]

/-- Witness for C9 (amended) at a concrete object with a 512 MB budget. -/
theorem claim_C9_command_shape_witness :
    run_subprocess_arguments
        ⟨"loc", "spmf.jar", "Algo", "in.txt", "spmf-output.txt", ["5"], [], 512⟩ =
      ["java", "-Xmx512m", "-jar", "loc/spmf.jar", "run", "Algo", "in.txt",
        "spmf-output.txt", "5"] := by
  rw [(claim_C9_command_shape
    ⟨"loc", "spmf.jar", "Algo", "in.txt", "spmf-output.txt", ["5"], [], 512⟩).1
    (by decide)]
  decide

/-- Claim C10: with direct string input, an `input_type` that is neither
`"normal"` nor `"text"`, and no input file path, `handle_input` fails with
`UnboundLocalError` (`file_ending` is never assigned before
`write_temp_input_file(input_direct, file_ending)` reads it), while a list
with the same unknown `input_type` falls through to the documented
`TypeError` branch. -/
theorem claim_C10_unbound_local (s : String) (seqs : List (List (List Int)))
    (tempName input_type : String)
    (h1 : input_type ≠ "normal") (h2 : input_type ≠ "text") :
    handle_input tempName (.pystr s) "" input_type =
      .error (.unboundLocalError "file_ending") ∧
    handle_input tempName (.pylistSeqs seqs) "" input_type =
      .error (.typeError noCorrectInputMsg) := by
  constructor <;> simp [handle_input, h1, h2]

/-- Witness for C10 at the concrete unknown input type `"graph"`. -/
theorem claim_C10_unbound_local_witness :
    handle_input "/tmp/t0" (.pystr "1 -1 -2") "" "graph" =
      .error (.unboundLocalError "file_ending") ∧
    handle_input "/tmp/t0" (.pylistSeqs [[[1]]]) "" "graph" =
      .error (.typeError noCorrectInputMsg) :=
  claim_C10_unbound_local "1 -1 -2" [[[1]]] "/tmp/t0" "graph"
    (by decide) (by decide)
